import Mathlib

/-!
Shallow embedding of mod_auth_web.c (URL-based authentication module).

Byte strings are modelled as lists of natural numbers below 256.  A value of
type `Str` stands for the contents of a C byte string; urlencode models the
NUL terminator of its C-string argument explicitly, mirroring the source's
while-loop over the pointer.
-/

/-- A byte string: each element is one byte (0 ≤ b < 256). -/
abbrev Str := List Nat

/-- Byte contents of an ASCII string literal. -/
def bytes (s : String) : Str := s.data.map Char.toNat

/-- C `isalnum` in the C locale on a byte: digits, uppercase, lowercase. -/
def isalnumB (c : Nat) : Bool :=
  (48 ≤ c && c ≤ 57) || (65 ≤ c && c ≤ 90) || (97 ≤ c && c ≤ 122)

/-- The pass-through test of `urlencode` (src line 151):
`isalnum(*check) || *check == '-' || *check == '_' || *check == '.'`. -/
def passThroughB (c : Nat) : Bool :=
  isalnumB c || c = 45 || c = 95 || c = 46

/-- One lowercase hex digit character (the 0-9a-f alphabet of `%x`). -/
def hexDigit (n : Nat) : Nat :=
  if n < 10 then 48 + n else 87 + n

/-- The lowercase hex digits of `v`, least significant first, as many as the
value needs (`%x` emits no leading zeros); `fuel` bounds the digit count and
8 covers every 32-bit value. -/
def hexRev (fuel v : Nat) : Str :=
  match fuel with
  | 0 => []
  | f + 1 => if v = 0 then [] else hexDigit (v % 16) :: hexRev f (v / 16)

/-- The full rendering of `%02x` applied to the 32-bit value `v`: its
lowercase hex digits, most significant first, zero-padded to a minimum
width of two. -/
def hexImage (v : Nat) : Str :=
  let ds := (hexRev 8 v).reverse
  List.replicate (2 - ds.length) 48 ++ ds

/-- What `snprintf(in_hex, 3, "%02x", v)` (src line 157) leaves in `in_hex`:
a size-3 buffer holds two characters plus the terminator, so only the first
two characters of the rendering survive. -/
def inHex (v : Nat) : Str := (hexImage v).take 2

/-- The int value `%x` sees for `*check`: plain `char` is signed on the
platforms this module targets, so byte values 128-255 are the negative
chars -128..-1, which default promotion sign-extends to the 32-bit values
0xffffff80..0xffffffff; bytes 0-127 promote to themselves.
4294967040 is 2^32 - 256. -/
def signExtend (c : Nat) : Nat :=
  if c % 256 < 128 then c % 256 else c % 256 + 4294967040

/-- `urlencode` (src lines 129-168): walks its argument as a C string
(`while (*check)`, so a NUL byte ends the input), copying alphanumerics and
`-`, `_`, `.` through, turning a space into `+`, and emitting `%` plus the
two `in_hex` characters for every other byte.  Via `signExtend` and the
snprintf truncation, bytes 1-127 escape to their own two lowercase hex
digits, while every byte 128-255 escapes to `ff` (the first two digits of
its sign-extended 8-digit rendering). -/
def urlencode : Str → Str
  | [] => []
  | c :: rest =>
    if c = 0 then []
    else if passThroughB c then c :: urlencode rest
    else if c = 32 then 43 :: urlencode rest
    else 37 :: (inHex (signExtend c) ++ urlencode rest)

/-- The value of a C string buffer: the bytes before the first NUL. -/
def cstr : Str → Str
  | [] => []
  | c :: rest => if c = 0 then [] else c :: cstr rest

/-- Modelled from the spec (§4.1): the per-byte encoding table — alphanumeric
bytes and `-`, `_`, `.` map to themselves, a space maps to `+`, and every
other byte maps to a 3-character lowercase `%xx` hex escape. -/
def encByteSpec (c : Nat) : Str :=
  if passThroughB c then [c]
  else if c = 32 then [43]
  else [37, hexDigit (c / 16), hexDigit (c % 16)]

/-- Modelled from the spec (§4.1): the counted-byte-sequence reading of the
encoder — the per-byte table applied to every byte of the input. -/
def encodeEachByte : Str → Str
  | [] => []
  | c :: rest => encByteSpec c ++ encodeEachByte rest

/-- Does `needle` stand at the front of `hay`? (helper for the strstr model). -/
def leadsWith : Str → Str → Bool
  | [], _ => true
  | _ :: _, [] => false
  | n :: ns, h :: hs => if n = h then leadsWith ns hs else false

/-- Model of `strstr(hay, needle) != NULL`: `needle` occurs somewhere in
`hay` as a contiguous byte-wise, case-sensitive substring. -/
def occursIn (needle : Str) : Str → Bool
  | [] => needle.isEmpty
  | c :: rest => leadsWith needle (c :: rest) || occursIn needle rest

/-- The module's configuration globals (src lines 29-34), as read back by
`auth_web_getconf`: each directive is either unset (`none`, a NULL pointer)
or set.  `userRegex` abstracts the compiled POSIX regex as its match
predicate: `f u = true` iff `pr_regexp_exec` returns 0 (a match). -/
structure Config where
  url : Option Str
  userParamName : Option Str
  passParamName : Option Str
  failedString : Option Str
  requiredHeaders : Option (List Str)
  localUser : Option Str
  userRegex : Option (Str → Bool)

/-- The configuration-completeness check shared by both handlers (src lines
47-48 and 182-183): `url`, `user_param_name`, `pass_param_name`,
`local_user` all set, and at least one of `failed_string`,
`required_headers` set. -/
def usableB (cfg : Config) : Bool :=
  cfg.url.isSome && cfg.userParamName.isSome && cfg.passParamName.isSome &&
    cfg.localUser.isSome &&
    (cfg.failedString.isSome || cfg.requiredHeaders.isSome)

/-- The username-regex gate (src lines 51-56 and 186-191): passes when no
regex is configured, or when the regex matches the username. -/
def gatePasses (cfg : Config) (username : Str) : Bool :=
  match cfg.userRegex with
  | none => true
  | some f => f username

/-- The auth decision: `PR_HANDLED` accepts, `PR_ERROR_INT(PR_AUTH_BADPWD)`
rejects, `PR_DECLINED` abstains (defers to other auth modules). -/
inductive Decision
  | Accept
  | Reject
  | Abstain
deriving DecidableEq

/-- Result of `curl_easy_perform` plus the state the callbacks left behind:
on failure the error buffer; on success the received header lines (CR/LF
trimmed, one entry per line, status line included) and the accumulated
`response_data` (`none` when no body data was received, mirroring the
NULL-initialised global). -/
inductive TransportResult
  | failure (diag : Str)
  | success (headers : List Str) (responseData : Option Str)

/-- What one invocation of the auth handler produces: the decision, whether
`curl_easy_perform` was invoked, and the `pr_log_pri` diagnostic lines the
handler itself emitted, in order. -/
structure AuthOutcome where
  decision : Decision
  networkCalled : Bool
  log : List Str

/-- `MOD_AUTH_WEB_VERSION` (src line 26), the prefix of every log line. -/
def verP : Str := bytes ("mod_auth_web/1.1.2")

/-- The POST body (src lines 208-218):
`user_param_name=escaped_username&pass_param_name=escaped_password`. -/
def postData (cfg : Config) (username password : Str) : Str :=
  cfg.userParamName.getD [] ++ bytes ("=") ++ urlencode username ++
    bytes ("&") ++ cfg.passParamName.getD [] ++ bytes ("=") ++
    urlencode password

/-- The inner loop of the required-header check (src lines 246-251):
`strcmp(required[i], received[j]) == 0` for some received line. -/
def findHeader (r : Str) : List Str → Bool
  | [] => false
  | h :: rest => if r = h then true else findHeader r rest

/-- The outer loop of the required-header check (src lines 242-257): walks
the required headers in order, logging each check; the first one missing
from the received lines rejects, and the loop falling through accepts. -/
def checkRequired (received : List Str) : List Str → Decision × List Str
  | [] => (.Accept, [])
  | r :: rest =>
    let checking := verP ++ bytes (": checking for header ") ++ r ++
      bytes (" in response")
    if findHeader r received then
      let res := checkRequired received rest
      (res.1, checking :: res.2)
    else
      (.Reject, [checking,
        verP ++ bytes (": couldnt find header ") ++ r ++
          bytes (" in response")])

/-- The failure-string condition (src line 231):
`failed_string && response_data && strstr(response_data, failed_string)`. -/
def rejectByStringB (cfg : Config) (responseData : Option Str) : Bool :=
  match cfg.failedString, responseData with
  | some fs, some rd => occursIn fs rd
  | _, _ => false

/-- Response evaluation after a successful call (src lines 231-261): the
failure-string rule first, then the required-header rule, then accept.
Returns the decision and the log lines emitted. -/
def evalResponse (cfg : Config) (headers : List Str)
    (responseData : Option Str) : Decision × List Str :=
  if rejectByStringB cfg responseData then
    (.Reject, [verP ++ bytes (": found failed string ") ++
      cfg.failedString.getD [] ++ bytes (" in response")])
  else
    match cfg.requiredHeaders with
    | none => (.Accept, [])
    | some required => checkRequired headers required

/-- `handle_auth_web_auth` (src lines 170-262): configuration gate, regex
gate, POST construction and logging, the curl call, then response
evaluation.  The transport outcome is passed in as the result of the one
`curl_easy_perform` invocation. -/
def handle_auth_web_auth (cfg : Config) (username password : Str)
    (transport : TransportResult) : AuthOutcome :=
  if usableB cfg = false then
    { decision := .Abstain, networkCalled := false, log := [] }
  else if gatePasses cfg username = false then
    { decision := .Abstain, networkCalled := false,
      log := [verP ++ bytes (": user doesnt match regex")] }
  else
    let callLine := verP ++ bytes (": calling URL ") ++ cfg.url.getD [] ++
      bytes (" with POST data ") ++ postData cfg username password
    match transport with
    | .failure diag =>
      { decision := .Abstain, networkCalled := true,
        log := [callLine, verP ++ bytes (": URL call failed: ") ++ diag] }
    | .success headers responseData =>
      let ev := evalResponse cfg headers responseData
      { decision := ev.1, networkCalled := true,
        log := callLine :: (verP ++ bytes (": URL call succeeded")) :: ev.2 }

/-- `struct passwd` as used here: `memcpy` copies every field, then
`pw_name` is replaced. -/
structure Passwd where
  name : Str
  passwd : Str
  uid : Nat
  gid : Nat
  gecos : Str
  dir : Str
  shell : Str
deriving DecidableEq

/-- What `handle_auth_web_getpwnam` can do: decline, crash (the
undefined-behaviour path), or hand back a passwd record via
`mod_create_data`. -/
inductive PwResult
  | declined
  | crash
  | data (pw : Passwd)
deriving DecidableEq

/-- `handle_auth_web_getpwnam` (src lines 42-69): the same two gates, then
`memcpy(pw, getpwnam(local_user), sizeof(struct passwd))` — when the local
account store has no entry for `local_user`, `getpwnam` returns NULL and
the `memcpy` dereferences it (`crash`); otherwise the record is copied and
its name field overridden with the attempted username.  `store` is the
local account store collaborator: `lookup(name) -> Option AccountRecord`. -/
def handle_auth_web_getpwnam (cfg : Config) (store : Str → Option Passwd)
    (username : Str) : PwResult :=
  if usableB cfg = false then .declined
  else if gatePasses cfg username = false then .declined
  else
    match store (cfg.localUser.getD []) with
    | none => .crash
    | some pw => .data { pw with name := username }

/-- A usable configuration with a failure string and no required headers. -/
def cfgW : Config :=
  { url := some (bytes ("http://verifier.example/login"))
    userParamName := some (bytes ("user"))
    passParamName := some (bytes ("pass"))
    failedString := some (bytes ("LOGIN FAILED"))
    requiredHeaders := none
    localUser := some (bytes ("web"))
    userRegex := none }

/-- A usable configuration with two required headers and no failure string. -/
def cfgRH : Config :=
  { url := some (bytes ("http://verifier.example/login"))
    userParamName := some (bytes ("user"))
    passParamName := some (bytes ("pass"))
    failedString := none
    requiredHeaders := some [bytes ("X-Auth: ok"), bytes ("X-Role: admin")]
    localUser := some (bytes ("web"))
    userRegex := none }

/-- A usable configuration whose configured failure string is empty. -/
def cfgEmptyFS : Config :=
  { url := some (bytes ("http://verifier.example/login"))
    userParamName := some (bytes ("user"))
    passParamName := some (bytes ("pass"))
    failedString := some []
    requiredHeaders := none
    localUser := some (bytes ("web"))
    userRegex := none }

/-- A configuration with no endpoint URL (otherwise complete). -/
def cfgNoURL : Config :=
  { url := none
    userParamName := some (bytes ("user"))
    passParamName := some (bytes ("pass"))
    failedString := some (bytes ("LOGIN FAILED"))
    requiredHeaders := none
    localUser := some (bytes ("web"))
    userRegex := none }

/-- A match predicate standing for a compiled username regex: usernames
beginning with `adm`. -/
def regAdm : Str → Bool := fun s => leadsWith (bytes ("adm")) s

/-- `cfgW` with the username filter `regAdm` installed. -/
def cfgReg : Config :=
  { url := some (bytes ("http://verifier.example/login"))
    userParamName := some (bytes ("user"))
    passParamName := some (bytes ("pass"))
    failedString := some (bytes ("LOGIN FAILED"))
    requiredHeaders := none
    localUser := some (bytes ("web"))
    userRegex := some regAdm }

/-- The local account template named `web`. -/
def pwWeb : Passwd :=
  { name := bytes ("web")
    passwd := bytes ("x")
    uid := 1000
    gid := 1000
    gecos := []
    dir := bytes ("/home/web")
    shell := bytes ("/bin/false") }

/-- A local account store holding only the `web` template. -/
def storeWeb : Str → Option Passwd :=
  fun q => if q = bytes ("web") then some pwWeb else none

theorem leadsWith_self_append (n t : Str) : leadsWith n (n ++ t) = true := by
  induction n with
  | nil => rfl
  | cons c r ih => simp [leadsWith, ih]

theorem occursIn_self_append (n b : Str) : occursIn n (n ++ b) = true := by
  cases n with
  | nil =>
    cases b with
    | nil => rfl
    | cons c r => simp [occursIn, leadsWith]
  | cons c r =>
    have h1 := leadsWith_self_append (c :: r) b
    simp only [List.cons_append] at h1
    simp [occursIn, h1]

theorem occursIn_append_right (a n h : Str) (hh : occursIn n h = true) :
    occursIn n (a ++ h) = true := by
  induction a with
  | nil => simpa using hh
  | cons c r ih => simp [occursIn, ih]

theorem occursIn_refl (n : Str) : occursIn n n = true := by
  have := occursIn_self_append n []
  simpa using this

theorem leadsWith_exists (n : Str) : ∀ h, leadsWith n h = true → ∃ t, h = n ++ t := by
  induction n with
  | nil => exact fun h _ => ⟨h, rfl⟩
  | cons c r ih =>
    intro h hl
    cases h with
    | nil => simp [leadsWith] at hl
    | cons x xs =>
      simp only [leadsWith] at hl
      by_cases hc : c = x
      · subst hc
        simp only [if_pos rfl] at hl
        obtain ⟨t, ht⟩ := ih xs hl
        exact ⟨t, by simp [ht]⟩
      · simp [if_neg hc] at hl

theorem occursIn_iff (n : Str) : ∀ h, occursIn n h = true ↔ ∃ a b, h = a ++ n ++ b := by
  intro h
  constructor
  · induction h with
    | nil =>
      intro hx
      simp [occursIn, List.isEmpty_iff] at hx
      exact ⟨[], [], by simp [hx]⟩
    | cons c rest ih =>
      intro hx
      simp only [occursIn, Bool.or_eq_true] at hx
      rcases hx with hx | hx
      · obtain ⟨t, ht⟩ := leadsWith_exists n (c :: rest) hx
        exact ⟨[], t, by simp [ht]⟩
      · obtain ⟨a, b, hab⟩ := ih hx
        exact ⟨c :: a, b, by simp [hab]⟩
  · rintro ⟨a, b, rfl⟩
    rw [List.append_assoc]
    exact occursIn_append_right a n (n ++ b) (occursIn_self_append n b)

theorem findHeader_iff (r : Str) : ∀ l, findHeader r l = true ↔ r ∈ l := by
  intro l
  induction l with
  | nil => simp [findHeader]
  | cons h rest ih =>
    by_cases hr : r = h
    · subst hr
      simp [findHeader]
    · simp [findHeader, if_neg hr, hr, ih]

theorem checkRequired_reject (received : List Str) :
    ∀ req, (∃ r, r ∈ req ∧ r ∉ received) →
      (checkRequired received req).1 = .Reject := by
  intro req
  induction req with
  | nil => rintro ⟨r, hm, _⟩; simp at hm
  | cons q rest ih =>
    rintro ⟨r, hm, hnot⟩
    by_cases hq : findHeader q received = true
    · have hrq : r ≠ q := by
        rintro rfl
        exact hnot ((findHeader_iff r received).1 hq)
      have hmem : r ∈ rest := by
        rcases List.mem_cons.1 hm with h | h
        · exact absurd h hrq
        · exact h
      simp only [checkRequired, if_pos hq]
      exact ih ⟨r, hmem, hnot⟩
    · simp [checkRequired, hq]

theorem checkRequired_accept (received : List Str) :
    ∀ req, (∀ r ∈ req, r ∈ received) →
      (checkRequired received req).1 = .Accept := by
  intro req
  induction req with
  | nil => intro _; rfl
  | cons q rest ih =>
    intro hall
    have hq : findHeader q received = true :=
      (findHeader_iff q received).2 (hall q (List.mem_cons_self q rest))
    simp only [checkRequired, if_pos hq]
    exact ih fun r hr => hall r (List.mem_cons_of_mem q hr)

set_option maxRecDepth 16384 in
theorem inHex_low :
    ∀ b < 128, inHex (signExtend b) = [hexDigit (b / 16), hexDigit (b % 16)] := by
  decide

set_option maxRecDepth 16384 in
theorem inHex_high :
    ∀ b < 256, 128 ≤ b → inHex (signExtend b) = [102, 102] := by
  decide

/-- Claim C1, counterexample: with a configured failure string that is the
empty string and a successful response carrying no body data, the empty
body contains the failure string as a (trivial) byte-wise substring, yet
the code accepts: line 231 also requires `response_data` to be non-NULL,
and it stays NULL when no body byte was received, so the failure-string
rule is skipped. -/
theorem empty_body_failure_string_cex :
    usableB cfgEmptyFS = true ∧
    cfgEmptyFS.failedString = some [] ∧
    occursIn [] [] = true ∧
    (handle_auth_web_auth cfgEmptyFS (bytes ("alice")) (bytes ("pw"))
      (.success [bytes ("HTTP/1.1 200 OK")] none)).decision = .Accept := by
  refine ⟨by decide, rfl, by decide, by decide⟩

/-- Claim C1 (amended): for every usable configuration with a failure
string set and every successful transport response from which body data was
received, if the received body contains the failure string as a
case-sensitive byte-wise literal substring then the decision is Reject,
and this holds whatever the required-headers configuration and the
received header lines are (rule 1 short-circuits rule 2). -/
theorem failure_string_rejects (cfg : Config) (u p : Str) (hs : List Str)
    (rd fs : Str) (hu : usableB cfg = true) (hg : gatePasses cfg u = true)
    (hf : cfg.failedString = some fs)
    (hocc : occursIn fs rd = true) :
    (handle_auth_web_auth cfg u p (.success hs (some rd))).decision = .Reject := by
  have hr : rejectByStringB cfg (some rd) = true := by
    simp [rejectByStringB, hf, hocc]
  simp [handle_auth_web_auth, hu, hg, evalResponse, hr]

/-- Claim C1, witness: a concrete usable configuration and response body
containing `LOGIN FAILED` is rejected. -/
theorem failure_string_rejects_witness :
    (handle_auth_web_auth cfgW (bytes ("bob")) (bytes ("pw"))
      (.success [bytes ("HTTP/1.1 200 OK")]
        (some (bytes ("page: LOGIN FAILED, retry"))))).decision = .Reject :=
  failure_string_rejects cfgW (bytes ("bob")) (bytes ("pw"))
    [bytes ("HTTP/1.1 200 OK")] (bytes ("page: LOGIN FAILED, retry"))
    (bytes ("LOGIN FAILED")) (by decide) (by decide) rfl (by decide)

/-- Claim C2: for every usable configuration with required headers
configured and every successful transport response, a required header with
no exact full-line case-sensitive match among the received lines forces
Reject, and if every required header matches some received line and the
failure-string rule did not reject, the decision is Accept. -/
theorem required_headers_rule (cfg : Config) (u p : Str) (hs : List Str)
    (rd : Option Str) (req : List Str)
    (hu : usableB cfg = true) (hg : gatePasses cfg u = true)
    (hreq : cfg.requiredHeaders = some req) :
    ((∃ r, r ∈ req ∧ r ∉ hs) →
      (handle_auth_web_auth cfg u p (.success hs rd)).decision = .Reject) ∧
    ((∀ r ∈ req, r ∈ hs) → rejectByStringB cfg rd = false →
      (handle_auth_web_auth cfg u p (.success hs rd)).decision = .Accept) := by
  constructor
  · intro hex
    by_cases hstr : rejectByStringB cfg rd = true
    · simp [handle_auth_web_auth, hu, hg, evalResponse, hstr]
    · have hrej := checkRequired_reject hs req hex
      have hstr2 : rejectByStringB cfg rd = false := by simpa using hstr
      simp [handle_auth_web_auth, hu, hg, evalResponse, hstr2, hreq, hrej]
  · intro hall hnostr
    have hacc := checkRequired_accept hs req hall
    simp [handle_auth_web_auth, hu, hg, evalResponse, hnostr, hreq, hacc]

/-- Claim C2, witness: with required headers `X-Auth: ok` and
`X-Role: admin`, a response carrying only the first is rejected and a
response carrying both is accepted. -/
theorem required_headers_rule_witness :
    (handle_auth_web_auth cfgRH (bytes ("bob")) (bytes ("pw"))
      (.success [bytes ("HTTP/1.1 200 OK"), bytes ("X-Auth: ok")]
        none)).decision = .Reject ∧
    (handle_auth_web_auth cfgRH (bytes ("bob")) (bytes ("pw"))
      (.success [bytes ("HTTP/1.1 200 OK"), bytes ("X-Auth: ok"),
        bytes ("X-Role: admin")] none)).decision = .Accept :=
  ⟨(required_headers_rule cfgRH (bytes ("bob")) (bytes ("pw"))
      [bytes ("HTTP/1.1 200 OK"), bytes ("X-Auth: ok")] none
      [bytes ("X-Auth: ok"), bytes ("X-Role: admin")]
      (by decide) (by decide) rfl).1
      ⟨bytes ("X-Role: admin"), by decide, by decide⟩,
   (required_headers_rule cfgRH (bytes ("bob")) (bytes ("pw"))
      [bytes ("HTTP/1.1 200 OK"), bytes ("X-Auth: ok"),
        bytes ("X-Role: admin")] none
      [bytes ("X-Auth: ok"), bytes ("X-Role: admin")]
      (by decide) (by decide) rfl).2 (by decide) (by decide)⟩

/-- Claim C3: a configuration missing the endpoint URL, the username
parameter name, the password parameter name, or the local identity, or
missing both the failure string and the required headers, makes both
handlers decline for every credential attempt: the auth decision is
Abstain, no network call is made, and the passwd lookup declines. -/
theorem unusable_config_abstains (cfg : Config) (u p : Str)
    (t : TransportResult) (store : Str → Option Passwd)
    (h : cfg.url = none ∨ cfg.userParamName = none ∨
      cfg.passParamName = none ∨ cfg.localUser = none ∨
      (cfg.failedString = none ∧ cfg.requiredHeaders = none)) :
    (handle_auth_web_auth cfg u p t).decision = .Abstain ∧
    (handle_auth_web_auth cfg u p t).networkCalled = false ∧
    handle_auth_web_getpwnam cfg store u = .declined := by
  have hu : usableB cfg = false := by
    rcases h with h | h | h | h | ⟨h1, h2⟩ <;> simp [usableB, *]
  refine ⟨?_, ?_, ?_⟩ <;>
    simp [handle_auth_web_auth, handle_auth_web_getpwnam, hu]

/-- Claim C3, witness: a configuration with no endpoint URL abstains and
makes no network call. -/
theorem unusable_config_abstains_witness :
    (handle_auth_web_auth cfgNoURL (bytes ("bob")) (bytes ("pw"))
      (.failure (bytes ("unused")))).decision = .Abstain ∧
    (handle_auth_web_auth cfgNoURL (bytes ("bob")) (bytes ("pw"))
      (.failure (bytes ("unused")))).networkCalled = false ∧
    handle_auth_web_getpwnam cfgNoURL storeWeb (bytes ("bob")) = .declined :=
  unusable_config_abstains cfgNoURL (bytes ("bob")) (bytes ("pw"))
    (.failure (bytes ("unused"))) storeWeb (Or.inl rfl)

/-- Claim C4: with a username filter configured, a username the filter does
not match makes the auth handler abstain without any network call. -/
theorem username_filter_abstains (cfg : Config) (u p : Str)
    (t : TransportResult) (f : Str → Bool)
    (hu : usableB cfg = true) (hf : cfg.userRegex = some f)
    (hm : f u = false) :
    (handle_auth_web_auth cfg u p t).decision = .Abstain ∧
    (handle_auth_web_auth cfg u p t).networkCalled = false := by
  have hg : gatePasses cfg u = false := by simp [gatePasses, hf, hm]
  constructor <;> simp [handle_auth_web_auth, hu, hg]

/-- Claim C4, witness: the filter matching usernames beginning with `adm`
makes the attempt of user `bob` abstain with no network call. -/
theorem username_filter_abstains_witness :
    (handle_auth_web_auth cfgReg (bytes ("bob")) (bytes ("pw"))
      (.failure (bytes ("unused")))).decision = .Abstain ∧
    (handle_auth_web_auth cfgReg (bytes ("bob")) (bytes ("pw"))
      (.failure (bytes ("unused")))).networkCalled = false :=
  username_filter_abstains cfgReg (bytes ("bob")) (bytes ("pw"))
    (.failure (bytes ("unused"))) regAdm (by decide) rfl (by decide)

/-- Claim C5: whenever the transport call fails (any configuration, any
credentials, any diagnostic), the decision is Abstain — in particular it is
never Reject. -/
theorem transport_failure_abstains (cfg : Config) (u p diag : Str) :
    (handle_auth_web_auth cfg u p (.failure diag)).decision = .Abstain := by
  by_cases hu : usableB cfg = false
  · simp [handle_auth_web_auth, hu]
  · by_cases hg : gatePasses cfg u = false
    · simp [handle_auth_web_auth, hu, hg]
    · simp [handle_auth_web_auth, hu, hg]

/-- Claim C6 (code bug): with a usable configuration and a local account
store lacking the configured local identity, the getpwnam handler reaches
`memcpy(pw, getpwnam(local_user), ...)` with a NULL source — undefined
behaviour (crash), not the Abstain the spec requires.  When the account is
present, the produced record is the template with only the name
overridden, as claimed. -/
theorem getpwnam_missing_account_crashes :
    handle_auth_web_getpwnam cfgW (fun _ => none) (bytes ("alice")) = .crash ∧
    handle_auth_web_getpwnam cfgW storeWeb (bytes ("alice")) =
      .data { pwWeb with name := bytes ("alice") } := by
  constructor <;> decide

/-- Claim C7, counterexample: the debug line `calling URL ... with POST
data ...` (src line 221) carries the URL-encoded password; for the
all-alphanumeric password `secret123` the log contains the password
verbatim, and changing only the password changes the log output. -/
theorem password_logged_cex :
    ((handle_auth_web_auth cfgW (bytes ("alice")) (bytes ("secret123"))
        (.failure (bytes ("connection refused")))).log.any
      (fun l => occursIn (bytes ("secret123")) l)) = true ∧
    (handle_auth_web_auth cfgW (bytes ("alice")) (bytes ("secret123"))
        (.failure (bytes ("connection refused")))).log ≠
      (handle_auth_web_auth cfgW (bytes ("alice")) (bytes ("hunter2"))
        (.failure (bytes ("connection refused")))).log := by
  constructor <;> decide

/-- Claim C7 (amended): the password is written to the diagnostic log — for
every usable configuration whose gate passes, whatever the transport
outcome, some logged line contains the URL-encoded password as a
substring, so the log output depends on and contains the (recoverably
encoded) password. -/
theorem password_in_log (cfg : Config) (u p : Str) (t : TransportResult)
    (hu : usableB cfg = true) (hg : gatePasses cfg u = true) :
    (handle_auth_web_auth cfg u p t).log.any
      (fun l => occursIn (urlencode p) l) = true := by
  have hu' : ¬(usableB cfg = false) := by simp [hu]
  have hg' : ¬(gatePasses cfg u = false) := by simp [hg]
  have hpost : occursIn (urlencode p) (postData cfg u p) = true := by
    unfold postData
    exact occursIn_append_right _ _ _ (occursIn_refl _)
  have hcall : occursIn (urlencode p)
      (verP ++ bytes (": calling URL ") ++ cfg.url.getD [] ++
        bytes (" with POST data ") ++ postData cfg u p) = true :=
    occursIn_append_right _ _ _ hpost
  unfold handle_auth_web_auth
  rw [if_neg hu', if_neg hg']
  cases t with
  | failure diag =>
    simp only [List.any_cons, List.any_nil, Bool.or_eq_true]
    exact Or.inl hcall
  | success headers responseData =>
    simp only [List.any_cons, List.any_nil, Bool.or_eq_true]
    exact Or.inl hcall

/-- Claim C7, witness: the concrete attempt of user `alice` with password
`secret123` logs a line containing the encoded password. -/
theorem password_in_log_witness :
    (handle_auth_web_auth cfgW (bytes ("alice")) (bytes ("secret123"))
      (.failure (bytes ("refused")))).log.any
      (fun l => occursIn (urlencode (bytes ("secret123"))) l) = true :=
  password_in_log cfgW (bytes ("alice")) (bytes ("secret123"))
    (.failure (bytes ("refused"))) (by decide) (by decide)

/-- Claim C8, counterexample: the claimed per-byte table fails twice — the
NUL byte is outside the pass-through class but terminates the walk
(`while (*check)`) instead of escaping to `%00`, and byte 0x80
sign-extends through `snprintf("%02x", *check)` whose size-3 truncation
yields `%ff`, not the byte hex `%80`. -/
theorem encode_table_cex :
    urlencode [0] ≠ encodeEachByte [0] ∧
    urlencode [128] = [37, 102, 102] ∧
    urlencode [128] ≠ encodeEachByte [128] := by
  refine ⟨by decide, by decide, by decide⟩

/-- Claim C8 (amended): for every input byte string whose bytes are all
nonzero and below 0x80, the encoder applies the claimed per-byte table —
alphanumerics and `-`, `_`, `.` pass through, space becomes `+`, every
other byte becomes a 3-character lowercase `%xx` escape — and the empty
input encodes to the empty string.  A NUL terminates the encoding, and
every byte 0x80-0xff escapes to `%ff` instead of its own hex (signed char
sign extension truncated by the size-3 snprintf). -/
theorem encode_per_byte (bs : Str) (h : ∀ c ∈ bs, 0 < c ∧ c < 128) :
    urlencode bs = encodeEachByte bs := by
  induction bs with
  | nil => rfl
  | cons c r ih =>
    obtain ⟨hc0, hc⟩ := h c (List.mem_cons_self c r)
    have hr := ih fun x hx => h x (List.mem_cons_of_mem c hx)
    have h0 : ¬(c = 0) := by omega
    have hin := inHex_low c hc
    simp only [urlencode, if_neg h0, encodeEachByte, encByteSpec]
    by_cases hp : passThroughB c = true
    · simp [hp, hr]
    · have hp2 : passThroughB c = false := by simpa using hp
      by_cases hs32 : c = 32
      · subst hs32
        simp [hp2, hr]
      · simp [hp2, if_neg hs32, hr, hin]

/-- Claim C8, witness: a concrete mixed ASCII input encodes byte-for-byte
per the table. -/
theorem encode_per_byte_witness :
    urlencode (bytes ("a b.x/")) = encodeEachByte (bytes ("a b.x/")) :=
  encode_per_byte (bytes ("a b.x/")) (by decide)

/-- Claim C9, counterexample: the escape is not unique per byte value — the
distinct bytes 0x80 and 0x81, both outside the pass-through class, escape
to the same three bytes `%ff` (snprintf truncation of the sign-extended
char) — and byte value 0, also outside the pass-through class, produces 0
output bytes rather than 3. -/
theorem escape_not_injective_cex :
    passThroughB 128 = false ∧ passThroughB 129 = false ∧
    urlencode [128] = urlencode [129] ∧ (128 : Nat) ≠ 129 ∧
    passThroughB 0 = false ∧ (0 : Nat) ≠ 32 ∧
    (urlencode [0]).length ≠ 3 := by
  refine ⟨by decide, by decide, by decide, by decide, by decide, by decide,
    by decide⟩

/-- Claim C9 (amended): every nonzero byte outside the pass-through class
(alphanumerics, `-`, `_`, `.`, space) escapes to exactly 3 output bytes;
the escape is unique per byte value only among bytes below 0x80, while
every byte 0x80-0xff collapses to the same escape `%ff`. -/
theorem escape_length_and_collapse (b b' : Nat)
    (hb0 : 0 < b) (hb : b < 256) (hp : passThroughB b = false) (hsp : b ≠ 32)
    (hb0' : 0 < b') (hb' : b' < 256) (hp' : passThroughB b' = false)
    (hsp' : b' ≠ 32) :
    (urlencode [b]).length = 3 ∧
    (b < 128 → b' < 128 → urlencode [b] = urlencode [b'] → b = b') ∧
    (128 ≤ b → urlencode [b] = [37, 102, 102]) := by
  have hne : ¬(b = 0) := by omega
  have hne' : ¬(b' = 0) := by omega
  have he : urlencode [b] = 37 :: inHex (signExtend b) := by
    simp [urlencode, hne, hp, hsp]
  have he' : urlencode [b'] = 37 :: inHex (signExtend b') := by
    simp [urlencode, hne', hp', hsp']
  refine ⟨?_, ?_, ?_⟩
  · by_cases hlt : b < 128
    · rw [he, inHex_low b hlt]; rfl
    · rw [he, inHex_high b hb (by omega)]; rfl
  · intro h128 h128' heq
    rw [he, he', inHex_low b h128, inHex_low b' h128'] at heq
    have hdig : ∀ n < 16, ∀ m < 16, hexDigit n = hexDigit m → n = m := by decide
    injection heq with hx heq1
    injection heq1 with h1 heq2
    injection heq2 with h2 heq3
    have e1 : b / 16 = b' / 16 := hdig _ (by omega) _ (by omega) h1
    have e2 : b % 16 = b' % 16 := hdig _ (by omega) _ (by omega) h2
    omega
  · intro hge
    rw [he, inHex_high b hb hge]

/-- Claim C9, witness: byte 47 (`/`) escapes to 3 bytes with the escape
determining the byte below 0x80, and byte 200 escapes to the collapsed
`%ff`. -/
theorem escape_length_and_collapse_witness :
    ((urlencode [47]).length = 3 ∧
      ((47 : Nat) < 128 → (47 : Nat) < 128 →
        urlencode [47] = urlencode [47] → (47 : Nat) = 47) ∧
      ((128 : Nat) ≤ 47 → urlencode [47] = [37, 102, 102])) ∧
    ((urlencode [200]).length = 3 ∧
      ((200 : Nat) < 128 → (47 : Nat) < 128 →
        urlencode [200] = urlencode [47] → (200 : Nat) = 47) ∧
      ((128 : Nat) ≤ 200 → urlencode [200] = [37, 102, 102])) :=
  ⟨escape_length_and_collapse 47 47 (by decide) (by decide) (by decide)
      (by decide) (by decide) (by decide) (by decide) (by decide),
   escape_length_and_collapse 200 47 (by decide) (by decide) (by decide)
      (by decide) (by decide) (by decide) (by decide) (by decide)⟩

/-- Claim C10, counterexample: the encoder walks its input with
`while (*check)`, so the input `a NUL b` encodes to just `a` — the output
does not cover the bytes at and after the NUL. -/
theorem encode_truncates_at_nul_cex :
    urlencode [97, 0, 98] = [97] ∧
    urlencode [97, 0, 98] ≠ encodeEachByte [97, 0, 98] := by
  constructor <;> decide

/-- Claim C10 (amended): the encoder treats its input as a NUL-terminated C
string, not a counted byte sequence — its output depends only on the bytes
before the first NUL, so an input containing a NUL byte is truncated
there rather than encoded in full. -/
theorem encode_truncates_at_nul (bs : Str) :
    urlencode bs = urlencode (cstr bs) := by
  induction bs with
  | nil => rfl
  | cons c r ih =>
    by_cases h0 : c = 0
    · subst h0
      simp [urlencode, cstr]
    · simp only [cstr, if_neg h0, urlencode]
      rw [ih]
